import Mathlib

/-!
# tailwind.config.js

A verification development for `src/tailwind.config.js`. The file is one
JavaScript object literal assigned to `module.exports`. It is embedded in two
layers:

* `Expr` is the fragment of JavaScript expressions the file is written in
  (string literals, array literals, object literals whose property names are
  identifiers, string literals or decimal integer literals), and
  `moduleExports` is the literal of the file, line by line;
* `JsValue` is the fragment of JavaScript values such a literal evaluates to,
  `eval` is the evaluation, and `config` is the exported object.

An object value is the list of its own properties in the order in which
JavaScript enumerates them: array-index keys first, ascending, then the other
keys in the order they were created.
-/

namespace TailwindConfig

/-! ## Expressions of the source file -/

/-- Property name of an object literal, as it is written in the source. -/
inductive PropertyName where
  | ident (name : String)
  | str (s : String)
  | num (n : Nat)
  deriving DecidableEq

/-- Expressions: the fragment of JavaScript used by the configuration file. -/
inductive Expr where
  | strLit (s : String)
  | arrayLit (elems : List Expr)
  | objectLit (props : List (PropertyName × Expr))

/-- Values: strings, arrays, and plain objects as ordered own-property lists. -/
inductive JsValue where
  | str (s : String)
  | arr (elems : List JsValue)
  | obj (props : List (String × JsValue))

mutual
/-- Decision procedure for equality of values. -/
def JsValue.decEq : (a b : JsValue) → Decidable (a = b)
  | .str s, .str t =>
    if h : s = t then isTrue (by rw [h]) else isFalse (fun e => h (JsValue.str.inj e))
  | .arr xs, .arr ys =>
    match JsValue.decEqList xs ys with
    | isTrue h => isTrue (by rw [h])
    | isFalse h => isFalse (fun e => h (JsValue.arr.inj e))
  | .obj ps, .obj qs =>
    match JsValue.decEqProps ps qs with
    | isTrue h => isTrue (by rw [h])
    | isFalse h => isFalse (fun e => h (JsValue.obj.inj e))
  | .str _, .arr _ => isFalse (fun e => JsValue.noConfusion e)
  | .str _, .obj _ => isFalse (fun e => JsValue.noConfusion e)
  | .arr _, .str _ => isFalse (fun e => JsValue.noConfusion e)
  | .arr _, .obj _ => isFalse (fun e => JsValue.noConfusion e)
  | .obj _, .str _ => isFalse (fun e => JsValue.noConfusion e)
  | .obj _, .arr _ => isFalse (fun e => JsValue.noConfusion e)
/-- Decision procedure for equality of element lists. -/
def JsValue.decEqList : (xs ys : List JsValue) → Decidable (xs = ys)
  | [], [] => isTrue rfl
  | [], _ :: _ => isFalse (fun e => List.noConfusion e)
  | _ :: _, [] => isFalse (fun e => List.noConfusion e)
  | x :: xs, y :: ys =>
    match JsValue.decEq x y, JsValue.decEqList xs ys with
    | isTrue h, isTrue t => isTrue (by rw [h, t])
    | isFalse h, _ => isFalse (fun e => h (List.cons.inj e).1)
    | _, isFalse t => isFalse (fun e => t (List.cons.inj e).2)
/-- Decision procedure for equality of property lists. -/
def JsValue.decEqProps : (ps qs : List (String × JsValue)) → Decidable (ps = qs)
  | [], [] => isTrue rfl
  | [], _ :: _ => isFalse (fun e => List.noConfusion e)
  | _ :: _, [] => isFalse (fun e => List.noConfusion e)
  | (k, x) :: ps, (l, y) :: qs =>
    if hk : k = l then
      match JsValue.decEq x y, JsValue.decEqProps ps qs with
      | isTrue h, isTrue t => isTrue (by rw [hk, h, t])
      | isFalse h, _ => isFalse (fun e => h (Prod.mk.inj (List.cons.inj e).1).2)
      | _, isFalse t => isFalse (fun e => t (List.cons.inj e).2)
    else isFalse (fun e => hk (Prod.mk.inj (List.cons.inj e).1).1)
end

instance : DecidableEq JsValue := JsValue.decEq

/-! ## The literal of `src/tailwind.config.js` -/

/-- The object literal assigned to `module.exports` (lines 2 to 30). -/
def moduleExports : Expr :=
  .objectLit [
    (.ident "content", .arrayLit [
      .strLit "./src/**/*.\x7bjs,jsx,ts,tsx\x7d",
      .strLit "./public/index.html"
    ]),
    (.ident "theme", .objectLit [
      (.ident "extend", .objectLit [
        (.ident "colors", .objectLit [
          (.str "slate", .objectLit [
            (.num 900, .strLit "#0f172a"),
            (.num 800, .strLit "#1e293b")
          ]),
          (.str "blue", .objectLit [
            (.num 900, .strLit "#1e3a8a"),
            (.num 400, .strLit "#60a5fa"),
            (.num 300, .strLit "#93c5fd")
          ]),
          (.str "cyan", .objectLit [
            (.num 400, .strLit "#22d3ee"),
            (.num 300, .strLit "#67e8f9")
          ])
        ]),
        (.ident "backgroundImage", .objectLit [
          (.str "gradient-radial", .strLit "radial-gradient(var(--tw-gradient-stops))")
        ])
      ])
    ]),
    (.ident "plugins", .arrayLit [])
  ]

/-! ## Evaluation of object literals -/

/-- Property key of a property name: identifiers and string literals give
their text, a numeric literal gives the decimal numeral of its value. -/
def PropertyName.toKey : PropertyName → String
  | .ident name => name
  | .str s => s
  | .num n => toString n

/-- Value of a run of decimal digits, most significant first; `none` when a
character is not a digit. The accumulator holds the value read so far. -/
def digitsValue : List Char → Nat → Option Nat
  | [], acc => some acc
  | c :: cs, acc =>
    if 48 ≤ c.toNat ∧ c.toNat ≤ 57 then digitsValue cs (acc * 10 + (c.toNat - 48)) else none

/-- Array index of a key: the key is the canonical decimal numeral of an
integer below `2 ^ 32 - 1`. Such keys are enumerated first, in ascending
order. -/
def arrayIndex? (k : String) : Option Nat :=
  match k.data with
  | [] => none
  | cs =>
    match digitsValue cs 0 with
    | some n => if toString n = k ∧ n < 2 ^ 32 - 1 then some n else none
    | none => none

/-- Insertion of a new array-index key `n`: before the first property whose
key is not an array index or is a larger one. -/
def insertIndexed (n : Nat) (k : String) (v : JsValue) :
    List (String × JsValue) → List (String × JsValue)
  | [] => [(k, v)]
  | (k0, v0) :: rest =>
    match arrayIndex? k0 with
    | some m => if m < n then (k0, v0) :: insertIndexed n k v rest else (k, v) :: (k0, v0) :: rest
    | none => (k, v) :: (k0, v0) :: rest

/-- Replacement of the value of an existing key, its position unchanged. -/
def replaceProp (k : String) (v : JsValue) :
    List (String × JsValue) → List (String × JsValue)
  | [] => []
  | (k0, v0) :: rest => if k0 = k then (k0, v) :: rest else (k0, v0) :: replaceProp k v rest

/-- Definition of the data property `k` with value `v` on an object: an
existing key keeps its place and takes the new value; a new array-index key
goes to its numeric place; any other new key goes last. -/
def defineProp (k : String) (v : JsValue) (props : List (String × JsValue)) :
    List (String × JsValue) :=
  if (props.map Prod.fst).contains k then replaceProp k v props
  else
    match arrayIndex? k with
    | some n => insertIndexed n k v props
    | none => props ++ [(k, v)]

mutual
/-- Evaluation of an expression to a value. -/
def eval : Expr → JsValue
  | .strLit s => .str s
  | .arrayLit es => .arr (evalElems es)
  | .objectLit ps => .obj (evalProps ps [])
/-- Evaluation of the elements of an array literal, left to right. -/
def evalElems : List Expr → List JsValue
  | [] => []
  | e :: es => eval e :: evalElems es
/-- Evaluation of the properties of an object literal, left to right, each
one defined on the object built so far. -/
def evalProps : List (PropertyName × Expr) → List (String × JsValue) → List (String × JsValue)
  | [], acc => acc
  | (name, e) :: ps, acc => evalProps ps (defineProp name.toKey (eval e) acc)
end

/-- The exported configuration object: the value of `module.exports`. -/
def config : JsValue := eval moduleExports

/-! ## Reading a value -/

/-- Own property keys of an object, in enumeration order; `none` for a value
that is not a plain object. -/
def JsValue.keys? : JsValue → Option (List String)
  | .obj props => some (props.map Prod.fst)
  | _ => none

/-- Own properties of an object; empty for a value that is not a plain object. -/
def JsValue.entries : JsValue → List (String × JsValue)
  | .obj props => props
  | _ => []

/-- Property read `v[k]` on a plain object; `none` when `v` is not a plain
object or has no own property `k`. -/
def JsValue.get? : JsValue → String → Option JsValue
  | .obj props, k => (props.find? (fun p => p.1 = k)).map Prod.snd
  | _, _ => none

/-- Whether a value is a plain object (a mapping). -/
def JsValue.isObject : JsValue → Bool
  | .obj _ => true
  | _ => false

/-- Whether a value is a string. -/
def JsValue.isString : JsValue → Bool
  | .str _ => true
  | _ => false

/-- Path read `v[k1][k2]...`. -/
def JsValue.path? : JsValue → List String → Option JsValue
  | v, [] => some v
  | v, k :: ks => (v.get? k).bind (fun w => w.path? ks)

/-- The value of `theme.extend.colors`. -/
def colors : Option JsValue := config.path? ["theme", "extend", "colors"]

/-- The value of `theme.extend.backgroundImage`. -/
def backgroundImage : Option JsValue := config.path? ["theme", "extend", "backgroundImage"]

/-- Colour families: the own properties of `theme.extend.colors`. -/
def colorFamilies : List (String × JsValue) :=
  match colors with
  | some v => v.entries
  | none => []

/-- Length of an array; `none` for a value that is not an array. -/
def JsValue.length? : JsValue → Option Nat
  | .arr elems => some elems.length
  | _ => none

/-! ## Reading the literal -/

/-- Properties written in an object literal, in source order; empty for an
expression that is not an object literal. -/
def Expr.props : Expr → List (PropertyName × Expr)
  | .objectLit ps => ps
  | _ => []

/-- Property names written in an object literal, in source order. -/
def Expr.names (e : Expr) : List PropertyName := e.props.map Prod.fst

/-- The expression written for key `k` in an object literal: the last
property with that key, the one whose value the object ends up with. -/
def Expr.field? (e : Expr) (k : String) : Option Expr :=
  (e.props.reverse.find? (fun p => p.1.toKey = k)).map Prod.snd

/-- Colour families as written: the properties of the literal at
`theme.extend.colors`. -/
def colorFamiliesWritten : List (PropertyName × Expr) :=
  match ((moduleExports.field? "theme").bind (fun e => e.field? "extend")).bind
      (fun e => e.field? "colors") with
  | some e => e.props
  | none => []

/-! ## Predicates on strings -/

/-- Hexadecimal digit: `0-9`, `a-f` or `A-F`. -/
def isHexDigit (c : Char) : Bool :=
  (48 ≤ c.toNat && c.toNat ≤ 57) || (97 ≤ c.toNat && c.toNat ≤ 102) ||
    (65 ≤ c.toNat && c.toNat ≤ 70)

/-- Colour code: a `#` followed by exactly six hexadecimal digits. -/
def isHexColor (s : String) : Bool :=
  match s.data with
  | [] => false
  | c :: digits => c = '#' && digits.length = 6 && digits.all isHexDigit

/-- The numeric shade scale. -/
def shadeScale : List Nat := [50, 100, 200, 300, 400, 500, 600, 700, 800, 900, 950]

/-- Opening brace of a glob brace group. -/
def openBrace : Char := Char.ofNat 123

/-- Closing brace of a glob brace group. -/
def closeBrace : Char := Char.ofNat 125

/-- Scan of the brace groups of a glob. The stack has one flag per open
group, innermost first: whether the alternative being read is non-empty.
An opening brace opens a group (and is content of the alternative around
it); a comma or a closing brace inside a group ends an alternative, which
must be non-empty; a closing brace outside any group is rejected; at the end
of the text no group may be open. -/
def braceScan : List Char → List Bool → Bool
  | [], stack => stack.isEmpty
  | c :: cs, [] =>
    if c = openBrace then braceScan cs [false]
    else if c = closeBrace then false
    else braceScan cs []
  | c :: cs, top :: below =>
    if c = openBrace then braceScan cs (false :: true :: below)
    else if c = closeBrace then top && braceScan cs below
    else if c = ',' then top && braceScan cs (false :: below)
    else braceScan cs (true :: below)

/-- Valid glob: a non-empty string whose brace groups are balanced and hold
comma-separated non-empty alternatives. -/
def validGlob (s : String) : Bool :=
  !s.data.isEmpty && braceScan s.data []

/-! ## JSON text

`jsonStringify` and `jsonParse` follow `JSON.stringify` and `JSON.parse` of
ECMA-262 (no replacer, no indentation, no reviver) on the values of
`JsValue`. JSON text holding a number, `true`, `false` or `null`, or a string
escape naming a surrogate code unit, has no value in `JsValue` and is
rejected by `jsonParse`. -/

/-- The double quote character. -/
def quoteChar : Char := Char.ofNat 34

/-- The reverse solidus character. -/
def backslashChar : Char := Char.ofNat 92

/-- Lower-case hexadecimal digit of a value below 16. -/
def hexDigitChar (n : Nat) : Char :=
  if n < 10 then Char.ofNat (48 + n) else Char.ofNat (87 + n)

/-- The escape `\uXXXX` of a code unit, four lower-case hexadecimal digits. -/
def unicodeEscape (n : Nat) : List Char :=
  [backslashChar, 'u', hexDigitChar (n / 4096 % 16), hexDigitChar (n / 256 % 16),
    hexDigitChar (n / 16 % 16), hexDigitChar (n % 16)]

/-- Characters written for one character of a quoted string: the two-character
escapes of backspace, tab, line feed, form feed, carriage return, the double
quote and the reverse solidus; `\uXXXX` for the other control characters;
the character itself otherwise. -/
def quoteOne (c : Char) : List Char :=
  if c.toNat = 8 then [backslashChar, 'b']
  else if c.toNat = 9 then [backslashChar, 't']
  else if c.toNat = 10 then [backslashChar, 'n']
  else if c.toNat = 12 then [backslashChar, 'f']
  else if c.toNat = 13 then [backslashChar, 'r']
  else if c = quoteChar then [backslashChar, quoteChar]
  else if c = backslashChar then [backslashChar, backslashChar]
  else if c.toNat < 32 then unicodeEscape c.toNat
  else [c]

/-- Quoted form of a string (QuoteJSONString). -/
def quoteJSONString (s : String) : List Char :=
  quoteChar :: (s.data.flatMap quoteOne ++ [quoteChar])

mutual
/-- Serialisation of a value (SerializeJSONProperty). -/
def serialize : JsValue → List Char
  | .str s => quoteJSONString s
  | .arr elems => '[' :: (serializeElems elems ++ [']'])
  | .obj props => openBrace :: (serializeProps props ++ [closeBrace])
/-- Serialised elements of an array, separated by commas. -/
def serializeElems : List JsValue → List Char
  | [] => []
  | [v] => serialize v
  | v :: w :: rest => serialize v ++ ',' :: serializeElems (w :: rest)
/-- Serialised members of an object, `key:value`, separated by commas, in
the enumeration order of the keys. -/
def serializeProps : List (String × JsValue) → List Char
  | [] => []
  | [(k, v)] => quoteJSONString k ++ ':' :: serialize v
  | (k, v) :: p :: rest =>
    quoteJSONString k ++ ':' :: (serialize v ++ ',' :: serializeProps (p :: rest))
end

/-- Model of `JSON.stringify(value)`. -/
def jsonStringify (v : JsValue) : String := String.mk (serialize v)

/-- JSON white space: tab, line feed, carriage return, space. -/
def isJsonSpace (c : Char) : Bool :=
  c.toNat = 9 || c.toNat = 10 || c.toNat = 13 || c.toNat = 32

/-- Removal of leading white space. -/
def skipSpace : List Char → List Char
  | [] => []
  | c :: cs => if isJsonSpace c then skipSpace cs else c :: cs

/-- Value of a hexadecimal digit. -/
def hexValue? (c : Char) : Option Nat :=
  if 48 ≤ c.toNat ∧ c.toNat ≤ 57 then some (c.toNat - 48)
  else if 97 ≤ c.toNat ∧ c.toNat ≤ 102 then some (c.toNat - 87)
  else if 65 ≤ c.toNat ∧ c.toNat ≤ 70 then some (c.toNat - 55)
  else none

/-- Value of four hexadecimal digits. -/
def hex4? (a b c d : Char) : Option Nat :=
  (hexValue? a).bind fun x => (hexValue? b).bind fun y => (hexValue? c).bind fun z =>
    (hexValue? d).map fun w => ((x * 16 + y) * 16 + z) * 16 + w

/-- Character named by a two-character escape. -/
def unescape? (e : Char) : Option Char :=
  if e = quoteChar then some quoteChar
  else if e = backslashChar then some backslashChar
  else if e = '/' then some '/'
  else if e = 'b' then some (Char.ofNat 8)
  else if e = 'f' then some (Char.ofNat 12)
  else if e = 'n' then some (Char.ofNat 10)
  else if e = 'r' then some (Char.ofNat 13)
  else if e = 't' then some (Char.ofNat 9)
  else none

/-- Reading of a string after its opening quote: the string and the text
after the closing quote. The accumulator holds the characters read so far,
last first. A raw control character, an unknown escape, a surrogate escape
or a missing closing quote gives `none`. -/
def readString : List Char → List Char → Option (String × List Char)
  | [], _ => none
  | c :: cs, acc =>
    if c = quoteChar then some (String.mk acc.reverse, cs)
    else if c = backslashChar then
      match cs with
      | [] => none
      | e :: rest =>
        if e = 'u' then
          match rest with
          | h1 :: h2 :: h3 :: h4 :: rest2 =>
            match hex4? h1 h2 h3 h4 with
            | some n =>
              if 55296 ≤ n ∧ n ≤ 57343 then none else readString rest2 (Char.ofNat n :: acc)
            | none => none
          | _ => none
        else
          match unescape? e with
          | some ch => readString rest (ch :: acc)
          | none => none
    else if c.toNat < 32 then none
    else readString cs (c :: acc)

mutual
/-- Reading of one JSON value and the text after it. The first argument
bounds the depth of the calls. -/
def parseValue : Nat → List Char → Option (JsValue × List Char)
  | 0, _ => none
  | fuel + 1, cs =>
    match skipSpace cs with
    | [] => none
    | c :: rest =>
      if c = quoteChar then (readString rest []).map fun r => (JsValue.str r.1, r.2)
      else if c = '[' then
        match skipSpace rest with
        | [] => none
        | d :: rest2 =>
          if d = ']' then some (JsValue.arr [], rest2)
          else (parseElements fuel (d :: rest2)).map fun r => (JsValue.arr r.1, r.2)
      else if c = openBrace then
        match skipSpace rest with
        | [] => none
        | d :: rest2 =>
          if d = closeBrace then some (JsValue.obj [], rest2)
          else (parseMembers fuel (d :: rest2) []).map fun r => (JsValue.obj r.1, r.2)
      else none
/-- Reading of the elements of an array up to its closing bracket. -/
def parseElements : Nat → List Char → Option (List JsValue × List Char)
  | 0, _ => none
  | fuel + 1, cs =>
    match parseValue fuel cs with
    | none => none
    | some (v, rest) =>
      match skipSpace rest with
      | [] => none
      | d :: rest2 =>
        if d = ',' then (parseElements fuel rest2).map fun r => (v :: r.1, r.2)
        else if d = ']' then some ([v], rest2)
        else none
/-- Reading of the members of an object up to its closing brace; each member
is defined on the object built so far, so a repeated key keeps its place and
takes the last value. -/
def parseMembers : Nat → List Char → List (String × JsValue) →
    Option (List (String × JsValue) × List Char)
  | 0, _, _ => none
  | fuel + 1, cs, acc =>
    match skipSpace cs with
    | [] => none
    | c :: rest =>
      if c = quoteChar then
        match readString rest [] with
        | none => none
        | some (k, rest2) =>
          match skipSpace rest2 with
          | [] => none
          | colon :: rest3 =>
            if colon = ':' then
              match parseValue fuel rest3 with
              | none => none
              | some (v, rest4) =>
                match skipSpace rest4 with
                | [] => none
                | d :: rest5 =>
                  if d = ',' then parseMembers fuel rest5 (defineProp k v acc)
                  else if d = closeBrace then some (defineProp k v acc, rest5)
                  else none
            else none
      else none
end

/-- Model of `JSON.parse(text)`: one value, with nothing but white space
after it. The depth bound is twice the length of the text plus two, more
than any text needs. -/
def jsonParse (text : String) : Option JsValue :=
  match parseValue (2 * text.data.length + 2) text.data with
  | some (v, rest) => if (skipSpace rest).isEmpty then some v else none
  | none => none

/-! ## Structure of the exported object -/

/-- C5: the exported object has exactly the fields `content`, `theme` and
`plugins`; `theme` has the single field `extend`; `extend` has exactly the
fields `colors` and `backgroundImage`, and both are plain objects. -/
theorem config_fields :
    config.keys? = some ["content", "theme", "plugins"] ∧
    (config.path? ["theme"]).bind JsValue.keys? = some ["extend"] ∧
    (config.path? ["theme", "extend"]).bind JsValue.keys? = some ["colors", "backgroundImage"] ∧
    colors.map JsValue.isObject = some true ∧
    backgroundImage.map JsValue.isObject = some true := by
  decide

/-- C6: the field `plugins` is present and its value is the empty array,
of length 0. -/
theorem plugins_empty :
    config.keys?.map (fun ks => ks.contains "plugins") = some true ∧
    config.get? "plugins" = some (.arr []) ∧
    (config.get? "plugins").bind JsValue.length? = some 0 := by
  decide

/-! ## The colour palette -/

/-- C8: `theme.extend.colors` has exactly the families `slate`, `blue` and
`cyan`, with 2, 3 and 2 shades (7 in all); every family is a plain object
with at least one property, and every property value of a family is a
string. -/
theorem color_families :
    colors.map JsValue.isObject = some true ∧
    colorFamilies.map Prod.fst = ["slate", "blue", "cyan"] ∧
    colorFamilies.map (fun fam => fam.2.entries.length) = [2, 3, 2] ∧
    (colorFamilies.map (fun fam => fam.2.entries.length)).sum = 7 ∧
    ∀ fam ∈ colorFamilies,
      fam.2.isObject = true ∧ fam.2.entries ≠ [] ∧
      ∀ shade ∈ fam.2.entries, shade.2.isString = true := by
  decide

/-- Every shade value of every family passes the colour check. -/
theorem shade_values_checked :
    ∀ fam ∈ colorFamilies, ∀ shade ∈ fam.2.entries,
      (match shade.2 with
        | .str s => decide (s.length = 7) && isHexColor s
        | _ => false) = true := by
  decide

/-- C1: in every colour family of `theme.extend.colors`, every shade value is
a string of exactly 7 characters, a `#` followed by six hexadecimal digits. -/
theorem color_values_hex (fam : String × JsValue) (hfam : fam ∈ colorFamilies)
    (shade : String × JsValue) (hshade : shade ∈ fam.2.entries) :
    ∃ s : String, shade.2 = .str s ∧ s.length = 7 ∧ isHexColor s = true := by
  have h := shade_values_checked fam hfam shade hshade
  cases hv : shade.2 with
  | str s =>
    rw [hv] at h
    simp only [Bool.and_eq_true, decide_eq_true_eq] at h
    exact ⟨s, rfl, h.1, h.2⟩
  | arr xs => rw [hv] at h; exact absurd h Bool.false_ne_true
  | obj ps => rw [hv] at h; exact absurd h Bool.false_ne_true

/-- Witness of C1 at the shade 900 of the family `slate`. -/
theorem color_values_hex_witness :
    (("slate", JsValue.obj [("800", .str "#1e293b"), ("900", .str "#0f172a")]) ∈ colorFamilies ∧
      ("900", JsValue.str "#0f172a") ∈
        (JsValue.obj [("800", .str "#1e293b"), ("900", .str "#0f172a")]).entries) ∧
    ∃ s : String, JsValue.str "#0f172a" = .str s ∧ s.length = 7 ∧ isHexColor s = true :=
  ⟨⟨by decide, by decide⟩,
    color_values_hex ("slate", .obj [("800", .str "#1e293b"), ("900", .str "#0f172a")])
      (by decide) ("900", .str "#0f172a") (by decide)⟩

/-- C7: in every colour family, every shade key is on the scale 50 to 950 and
no shade key occurs twice; this holds of the property names as written in
the source and of the keys of the exported object. -/
theorem shade_keys_on_scale :
    colorFamiliesWritten.map (fun fam => fam.1.toKey) = ["slate", "blue", "cyan"] ∧
    (∀ fam ∈ colorFamiliesWritten,
      (∀ name ∈ fam.2.names, ∃ n ∈ shadeScale, name = .num n) ∧
      (fam.2.names.map PropertyName.toKey).Nodup) ∧
    colorFamilies.map Prod.fst = ["slate", "blue", "cyan"] ∧
    (∀ fam ∈ colorFamilies,
      (∀ k ∈ fam.2.entries.map Prod.fst, ∃ n ∈ shadeScale, k = toString n) ∧
      (fam.2.entries.map Prod.fst).Nodup) := by
  decide

/-! ## The background image and the content paths -/

/-- C2: `theme.extend.backgroundImage` has exactly one entry; its key is
`gradient-radial` and its value is a string containing `radial-gradient(`
and `var(--tw-gradient-stops)`. -/
theorem background_image_entry :
    ∃ s : String,
      backgroundImage.map JsValue.entries = some [("gradient-radial", .str s)] ∧
      "radial-gradient(".data <:+: s.data ∧
      "var(--tw-gradient-stops)".data <:+: s.data :=
  ⟨"radial-gradient(var(--tw-gradient-stops))", by decide, by decide, by decide⟩

/-- C3: `content` is a non-empty array and every entry is a non-empty string
whose brace groups are balanced and hold only non-empty alternatives. -/
theorem content_globs_valid :
    ∃ paths : List JsValue,
      config.get? "content" = some (.arr paths) ∧ paths ≠ [] ∧
      ∀ p ∈ paths, ∃ s : String, p = .str s ∧ s ≠ "" ∧ validGlob s = true :=
  ⟨[.str "./src/**/*.\x7bjs,jsx,ts,tsx\x7d", .str "./public/index.html"],
    by decide, by decide,
    by
      intro p hp
      simp only [List.mem_cons, List.mem_singleton, List.not_mem_nil, or_false] at hp
      rcases hp with rfl | rfl
      · exact ⟨_, rfl, by decide, by decide⟩
      · exact ⟨_, rfl, by decide, by decide⟩⟩

/-! ## Serialisation -/

set_option maxRecDepth 100000

/-- The JSON text of the exported object. -/
theorem json_text :
    jsonStringify config =
      "\x7b\"content\":[\"./src/**/*.\x7bjs,jsx,ts,tsx\x7d\",\"./public/index.html\"]," ++
      "\"theme\":\x7b\"extend\":\x7b\"colors\":\x7b" ++
      "\"slate\":\x7b\"800\":\"#1e293b\",\"900\":\"#0f172a\"\x7d," ++
      "\"blue\":\x7b\"300\":\"#93c5fd\",\"400\":\"#60a5fa\",\"900\":\"#1e3a8a\"\x7d," ++
      "\"cyan\":\x7b\"300\":\"#67e8f9\",\"400\":\"#22d3ee\"\x7d\x7d," ++
      "\"backgroundImage\":\x7b\"gradient-radial\":" ++
      "\"radial-gradient(var(--tw-gradient-stops))\"\x7d\x7d\x7d," ++
      "\"plugins\":[]\x7d" := by
  decide

/-- C4: serialising the exported object to JSON and parsing the text back
gives the exported object again. -/
theorem json_round_trip : jsonParse (jsonStringify config) = some config := by
  decide

end TailwindConfig
